import Mathlib

/-!
Shallow embedding of the CubeWizard visual extraction pipeline
(`src/image_processor.py`, configuration from `src/config_manager.py`).

File paths are modelled structurally as (parent, stem, suffix), mirroring
`pathlib.Path`'s decomposition used throughout the source.  The filesystem is
an association list from paths to image metadata; `PIL.Image.open` on a path
absent from the disk raises, mirrored here by `Except`/error results.  The
recognition engine (OpenAI) is an external collaborator and enters the model
as an oracle: an `Except Unit Nat` for the orientation call and a
`Nat → List String` giving the card-name list of the i-th extraction call of
one invocation (a failed call is already absorbed to `[]` by
`_single_pass_extraction`, which returns `[]` on any exception).
-/

set_option autoImplicit false

namespace CubeWizard

/-! ## String helpers (substring test used for the "_oriented" marker) -/

/-- `hasPre pat l` : `pat` is a leading segment of `l`. -/
def hasPre : List Char → List Char → Bool
  | [], _ => true
  | _ :: _, [] => false
  | c :: cs, d :: ds => c == d && hasPre cs ds

/-- `hasSub pat l` : `pat` occurs contiguously somewhere inside `l`. -/
def hasSub (pat : List Char) : List Char → Bool
  | [] => hasPre pat []
  | c :: rest => hasPre pat (c :: rest) || hasSub pat rest

/-- Python's `pat in s` substring test on strings. -/
def strContains (s pat : String) : Bool :=
  hasSub pat.toList s.toList

/-- Character count of a string (via its underlying character list). -/
def strLen (s : String) : Nat := s.data.length

/-- ASCII lowercasing, Python's `str.lower()` for the extension strings the
source compares (all ASCII). -/
def strLower (s : String) : String := ⟨s.data.map Char.toLower⟩

/-! ## Paths, image metadata and the disk -/

/-- A file path, decomposed the way `pathlib.Path` is used in the source:
`parent` directory, `stem` (base name without extension) and `suffix`
(extension including the leading dot). -/
structure ImgPath where
  parent : String
  stem : String
  suffix : String
  deriving DecidableEq, Repr

/-- What the model retains of an image file: its PIL mode string and its
pixel dimensions. -/
structure ImageMeta where
  mode : String
  width : Nat
  height : Nat
  deriving DecidableEq, Repr

/-- The filesystem: an association list from paths to image metadata. -/
abbrev Disk := List (ImgPath × ImageMeta)

def diskFind : Disk → ImgPath → Option ImageMeta
  | [], _ => none
  | e :: rest, p => if e.1 = p then some e.2 else diskFind rest p

def diskRemove : Disk → ImgPath → Disk
  | [], _ => []
  | e :: rest, p => if e.1 = p then diskRemove rest p else e :: diskRemove rest p

def diskPut (d : Disk) (p : ImgPath) (m : ImageMeta) : Disk :=
  (p, m) :: diskRemove d p

/-! ## Configuration (`src/config_manager.py`, defaults as in the source) -/

structure Config where
  maxImageWidth : Nat := 2048
  maxImageHeight : Nat := 2048
  useMultiPassDetection : Bool := true
  enableValidationPass : Bool := true
  expectedDeckSize : Nat := 40
  deriving DecidableEq, Repr

/-! ## Recognition-engine oracle and events -/

/-- A Python exception escaping a pipeline function. -/
inductive PyError where
  /-- `FileNotFoundError` from `PIL.Image.open` / `open`. -/
  | fileNotFound
  /-- The error escaping `detect_image_orientation`'s `except` block
  (the `NameError` on the unbound `response`, or the `SystemExit`). -/
  | fatal
  deriving DecidableEq, Repr

/-- Observable processing steps, for tracing when work begins. -/
inductive Event where
  | convertOpen
  | resizeOpen
  | encodeRead
  deriving DecidableEq, Repr

/-- Python truthiness of an optional list (`if cube_card_list:`):
`None` and the empty list are falsy. -/
def truthyList (o : Option (List String)) : Bool :=
  match o with
  | none => false
  | some l => !l.isEmpty

/-! ## `_multi_pass_extraction` (src/image_processor.py:531-592)

The engine oracle `sp i` is the `card_names` list produced by the i-th
`_single_pass_extraction` call of this invocation (0-based); a failed call is
already `[]` there.  `all_cards` is a Python `set`, modelled as a
`Finset String`.  The pass-3 coverage test `found_cards < expected_total * 0.9`
is modelled with exact rational arithmetic as `10 * found < 9 * expected`
(the float literal `0.9` is treated as the rational 9/10). -/

structure MultiPassRun where
  finalCards : Finset String
  afterPass1 : Finset String
  afterPass2 : Finset String
  pass2Ran : Bool
  pass3Ran : Bool
  engineCalls : Nat

def multiPassExtraction (cfg : Config) (sp : Nat → List String)
    (cubeCardList : Option (List String)) : MultiPassRun :=
  let firstPassCards := sp 0
  let allCards1 : Finset String := firstPassCards.toFinset
  if truthyList cubeCardList && decide (firstPassCards.length > 0) then
    let secondPassCards := sp 1
    let allCards2 := allCards1 ∪ secondPassCards.toFinset
    if truthyList cubeCardList && cfg.enableValidationPass then
      let foundCards := allCards2.card
      if 10 * foundCards < 9 * cfg.expectedDeckSize then
        let unfoundCards :=
          (cubeCardList.getD []).filter fun card => decide (card ∉ allCards2)
        if !unfoundCards.isEmpty then
          let allCards3 := allCards2 ∪ (sp 2).toFinset
          ⟨allCards3, allCards1, allCards2, true, true, 3⟩
        else ⟨allCards2, allCards1, allCards2, true, false, 2⟩
      else ⟨allCards2, allCards1, allCards2, true, false, 2⟩
    else ⟨allCards2, allCards1, allCards2, true, false, 2⟩
  else ⟨allCards1, allCards1, allCards1, false, false, 1⟩

/-! ## `_convert_to_compatible_format` (src/image_processor.py:126-169) -/

/-- Extensions the source accepts without conversion. -/
def acceptedSuffixes : List String := [".jpg", ".jpeg", ".png"]

structure ConvertRun where
  path : ImgPath
  disk : Disk
  created : List ImgPath
  trace : List Event
  deriving Repr

/-- `_convert_to_compatible_format`.  Accepted extensions return the input
path with no disk access; otherwise the file is opened (a missing file makes
`Image.open` raise, which the source catches and absorbs by falling back to
the original path).  Modes `RGBA`/`P` are saved losslessly as `.png`
preserving the mode; every other mode is converted to `RGB` and saved as
`.jpg`. -/
def convertToCompatibleFormat (d : Disk) (p : ImgPath) : ConvertRun :=
  if acceptedSuffixes.contains (strLower p.suffix) then
    ⟨p, d, [], []⟩
  else
    match diskFind d p with
    | none => ⟨p, d, [], [.convertOpen]⟩
    | some img =>
      if img.mode == "RGBA" || img.mode == "P" then
        let cp : ImgPath := ⟨p.parent, p.stem ++ "_converted", ".png"⟩
        ⟨cp, diskPut d cp img, [cp], [.convertOpen]⟩
      else
        let cp : ImgPath := ⟨p.parent, p.stem ++ "_converted", ".jpg"⟩
        ⟨cp, diskPut d cp ⟨"RGB", img.width, img.height⟩, [cp], [.convertOpen]⟩

/-! ## `resize_image_if_needed` (src/image_processor.py:310-348) -/

/-- Aspect-preserving downscale into the (mw, mh) box, as `Image.thumbnail`
does (integer rounding approximated by floor division; the claims never
inspect the resized dimensions). -/
def thumbnailDims (w h mw mh : Nat) : Nat × Nat :=
  if w * mh ≥ h * mw then (mw, max 1 (h * mw / w)) else (max 1 (w * mh / h), mh)

/-- `resize_image_if_needed`: opens the image (raising on a missing file —
the source has no exception handler here), returns the input path unchanged
when both dimensions are within bounds, and otherwise writes a `_resized`
sibling with the input's extension.  Also returns the list of files it
created. -/
def resizeImageIfNeeded (cfg : Config) (d : Disk) (p : ImgPath) :
    Except PyError (ImgPath × Disk × List ImgPath) :=
  match diskFind d p with
  | none => .error .fileNotFound
  | some img =>
    if img.width ≤ cfg.maxImageWidth && img.height ≤ cfg.maxImageHeight then
      .ok (p, d, [])
    else
      let wh := thumbnailDims img.width img.height cfg.maxImageWidth cfg.maxImageHeight
      let rp : ImgPath := ⟨p.parent, p.stem ++ "_resized", p.suffix⟩
      .ok (rp, diskPut d rp ⟨img.mode, wh.1, wh.2⟩, [rp])

/-- `encode_image` (src/image_processor.py:113-124): reads the file, raising
if it is missing. -/
def encodeImage (d : Disk) (p : ImgPath) : Except PyError Unit :=
  if (diskFind d p).isSome then .ok () else .error .fileNotFound

/-! ## `detect_image_orientation` (src/image_processor.py:171-258)

The engine oracle `orientResp` is the outcome of the single orientation
recognition call: `.ok r` for a parsed `rotation_needed = r`, `.error ()` for
any engine or transport exception.  On the success path the temporary
converted file is removed before returning; on the exception path the
`except` block removes the temporary file and then itself raises (the
`print(f"{response}")` on the unbound name, followed by `raise SystemExit`),
so no rotation value is ever returned -- the `return 0` after the raise is
dead code. -/

structure DetectRun where
  result : Except PyError Nat
  disk : Disk
  engineCalls : Nat
  created : List ImgPath

def detectImageOrientation (orientResp : Except Unit Nat) (d : Disk)
    (p : ImgPath) : DetectRun :=
  let cr := convertToCompatibleFormat d p
  match encodeImage cr.disk cr.path with
  | .error _ =>
    let d' := if cr.path = p then cr.disk else diskRemove cr.disk cr.path
    ⟨.error .fatal, d', 0, cr.created⟩
  | .ok _ =>
    match orientResp with
    | .error _ =>
      let d' := if cr.path = p then cr.disk else diskRemove cr.disk cr.path
      ⟨.error .fatal, d', 1, cr.created⟩
    | .ok rot =>
      let d' := if cr.path = p then cr.disk else diskRemove cr.disk cr.path
      ⟨.ok rot, d', 1, cr.created⟩

/-! ## `rotate_and_save_image` (src/image_processor.py:260-308)

`rotateOk` is the oracle for the fallible PIL open/rotate/save sequence: any
exception there is caught by the source, which returns the original path.  A
missing source file likewise raises inside `Image.open` and is caught.  The
clockwise request is converted to PIL's counter-clockwise convention by
`(360 - r) % 360`; `expand=True` swaps the canvas dimensions for quarter-turn
angles and keeps them for half turns. -/

def rotateAndSaveImage (d : Disk) (p : ImgPath) (rotationDegrees : Nat)
    (outputPath : Option ImgPath) (rotateOk : Bool) :
    ImgPath × Disk × List ImgPath :=
  if rotationDegrees = 0 then (p, d, [])
  else
    match diskFind d p with
    | none => (p, d, [])
    | some img =>
      if rotateOk then
        let pilRotation := (360 - rotationDegrees) % 360
        let wh := if pilRotation % 180 = 0 then (img.width, img.height)
                  else (img.height, img.width)
        let out := outputPath.getD ⟨p.parent, p.stem ++ "_rotated", p.suffix⟩
        (out, diskPut d out ⟨img.mode, wh.1, wh.2⟩, [out])
      else (p, d, [])

/-! ## `extract_card_names` (src/image_processor.py:350-449)

The reference list (fetched from CubeCobra when an id is supplied) enters as
the `cubeCardList` parameter.  Conversion and resizing happen before the
`try`; the `cleanup_files` bookkeeping is built afterwards and the `finally`
removes those files on every exit path of the extraction step. -/

structure ExtractRun where
  result : Except PyError (Finset String)
  disk : Disk
  cleanup : List ImgPath
  engineCalls : Nat
  trace : List Event

/-- The deduplicated card-name set a successful extraction step produces
(the engine results filtered through the multi-pass orchestration or the
single pass). -/
def extractedCards (cfg : Config) (sp : Nat → List String)
    (cubeCardList : Option (List String)) (useMultiPass : Bool) :
    Finset String :=
  if useMultiPass && cfg.useMultiPassDetection then
    (multiPassExtraction cfg sp cubeCardList).finalCards
  else (sp 0).toFinset

/-- Engine calls a successful extraction step performs. -/
def extractedCalls (cfg : Config) (sp : Nat → List String)
    (cubeCardList : Option (List String)) (useMultiPass : Bool) : Nat :=
  if useMultiPass && cfg.useMultiPassDetection then
    (multiPassExtraction cfg sp cubeCardList).engineCalls
  else 1

def extractCardNames (cfg : Config) (sp : Nat → List String) (d : Disk)
    (p : ImgPath) (cubeCardList : Option (List String))
    (useMultiPass : Bool) : ExtractRun :=
  let cr := convertToCompatibleFormat d p
  match resizeImageIfNeeded cfg cr.disk cr.path with
  | .error e =>
    -- the exception propagates before `cleanup_files` exists
    ⟨.error e, cr.disk, [], 0, cr.trace ++ [.resizeOpen]⟩
  | .ok (pp, d2, _) =>
    match encodeImage d2 pp with
    | .error e => ⟨.error e, d2, [], 0, cr.trace ++ [.resizeOpen, .encodeRead]⟩
    | .ok _ =>
      let cleanupFiles :=
        (if cr.path = p then [] else [cr.path]) ++
        (if pp = cr.path then [] else [pp])
      let cards := extractedCards cfg sp cubeCardList useMultiPass
      let calls := extractedCalls cfg sp cubeCardList useMultiPass
      let d3 := cleanupFiles.foldl diskRemove d2
      ⟨.ok cards, d3, cleanupFiles, calls, cr.trace ++ [.resizeOpen, .encodeRead]⟩

/-! ## `extract_card_names_with_orientation` (src/image_processor.py:451-486) -/

/-- The filename marker signalling an already-corrected artifact. -/
def orientedMarker : String := "_oriented"

/-- The `_oriented` sibling path built for database storage. -/
def orientedPathOf (p : ImgPath) : ImgPath :=
  ⟨p.parent, p.stem ++ orientedMarker, p.suffix⟩

structure ExtractORun where
  result : Except PyError (Finset String × ImgPath)
  disk : Disk
  rotationUsed : Nat
  orientationEngineCalls : Nat
  extractionEngineCalls : Nat
  temps : List ImgPath

def extractCardNamesWithOrientation (cfg : Config)
    (orientResp : Except Unit Nat) (sp : Nat → List String) (rotateOk : Bool)
    (d : Disk) (p : ImgPath) (cubeCardList : Option (List String))
    (useMultiPass : Bool) : ExtractORun :=
  if strContains p.stem orientedMarker then
    let er := extractCardNames cfg sp d p cubeCardList useMultiPass
    ⟨(er.result.map fun cards => (cards, p)), er.disk, 0, 0, er.engineCalls,
      er.cleanup⟩
  else
    let dr := detectImageOrientation orientResp d p
    match dr.result with
    | .error e => ⟨.error e, dr.disk, 0, dr.engineCalls, 0, dr.created⟩
    | .ok rotationNeeded =>
      let step :=
        if rotationNeeded ≠ 0 then
          rotateAndSaveImage dr.disk p rotationNeeded (some (orientedPathOf p))
            rotateOk
        else (p, dr.disk, [])
      let orientedImagePath := step.1
      let er := extractCardNames cfg sp step.2.1 orientedImagePath cubeCardList
        useMultiPass
      ⟨(er.result.map fun cards => (cards, orientedImagePath)), er.disk,
        rotationNeeded, dr.engineCalls, er.engineCalls,
        dr.created ++ er.cleanup⟩

/-! ## Spec-side predicate for the format-normalizer transparency clause -/

/-- Modelled from the spec (§4.1): the predicate "has an alpha/transparency
channel or palette mode" over PIL mode strings.  The PIL modes carrying an
alpha channel are `RGBA`, `RGBa`, `LA`, `La` and `PA`; `P` is the palette
mode. -/
def specHasAlphaOrPalette (mode : String) : Bool :=
  ["RGBA", "RGBa", "LA", "La", "PA", "P"].contains mode

/-- The oriented-image path a run reports, if it succeeded. -/
def resultPath (r : ExtractORun) : Option ImgPath :=
  match r.result with
  | .ok (_, op) => some op
  | .error _ => none

/-! ## Basic lemmas: string lengths and the substring test -/

theorem strLen_append (s t : String) : strLen (s ++ t) = strLen s + strLen t := by
  cases s with
  | mk a =>
    cases t with
    | mk b =>
      show (String.mk (a ++ b)).data.length = a.length + b.length
      simp

theorem ne_of_strLen_ne {s t : String} (h : strLen s ≠ strLen t) : s ≠ t :=
  fun he => h (by rw [he])

theorem imgPath_ne_of_stem_len {q r : ImgPath}
    (h : strLen q.stem ≠ strLen r.stem) : q ≠ r :=
  fun he => h (by rw [he])

theorem hasPre_append_self (pat ys : List Char) :
    hasPre pat (pat ++ ys) = true := by
  induction pat with
  | nil => rfl
  | cons c cs ih => simp [hasPre, ih]

theorem hasSub_of_append (xs pat ys : List Char) :
    hasSub pat (xs ++ (pat ++ ys)) = true := by
  induction xs with
  | nil =>
    cases pat with
    | nil => cases ys <;> simp [hasSub, hasPre]
    | cons c cs =>
      show hasSub (c :: cs) ((c :: cs) ++ ys) = true
      simp only [hasSub, Bool.or_eq_true]
      exact Or.inl (hasPre_append_self (c :: cs) ys)
  | cons x xs ih => simp [hasSub, ih]

theorem strContains_append_self (s t : String) :
    strContains (s ++ t) t = true := by
  have hdata : (s ++ t).data = s.data ++ t.data := by
    cases s; cases t; rfl
  have h := hasSub_of_append s.data t.data []
  rw [List.append_nil] at h
  simpa [strContains, String.toList, hdata] using h

/-! ## Basic lemmas: the disk model -/

theorem diskFind_put_self (d : Disk) (p : ImgPath) (m : ImageMeta) :
    diskFind (diskPut d p m) p = some m := by
  simp [diskFind, diskPut]

theorem diskFind_remove_ne (d : Disk) (p q : ImgPath) (h : q ≠ p) :
    diskFind (diskRemove d p) q = diskFind d q := by
  induction d with
  | nil => rfl
  | cons e rest ih =>
    by_cases he : e.1 = p
    · have hq : e.1 ≠ q := fun hq => h (by rw [← hq, he])
      have hpq : p ≠ q := fun hpq => h hpq.symm
      simp [diskRemove, diskFind, he, hq, hpq, ih]
    · by_cases heq : e.1 = q
      · simp [diskRemove, diskFind, he, heq, h]
      · simp [diskRemove, diskFind, he, heq, ih]

theorem diskFind_remove_self (d : Disk) (p : ImgPath) :
    diskFind (diskRemove d p) p = none := by
  induction d with
  | nil => rfl
  | cons e rest ih =>
    by_cases he : e.1 = p
    · simpa [diskRemove, he] using ih
    · simpa [diskRemove, diskFind, he] using ih

theorem diskFind_put_ne (d : Disk) (p q : ImgPath) (m : ImageMeta)
    (h : q ≠ p) : diskFind (diskPut d p m) q = diskFind d q := by
  have hpq : p ≠ q := fun he => h he.symm
  simp [diskPut, diskFind, hpq, diskFind_remove_ne d p q h]

theorem diskFind_foldl_remove_not_mem (L : List ImgPath) (d : Disk)
    (q : ImgPath) (h : q ∉ L) :
    diskFind (L.foldl diskRemove d) q = diskFind d q := by
  induction L generalizing d with
  | nil => rfl
  | cons a L ih =>
    have hqa : q ≠ a := fun he => h (he ▸ List.mem_cons_self a L)
    have hL : q ∉ L := fun hm => h (List.mem_cons_of_mem a hm)
    simp only [List.foldl]
    rw [ih _ hL, diskFind_remove_ne _ _ _ hqa]

theorem diskFind_foldl_remove_mem (L : List ImgPath) (d : Disk) (q : ImgPath)
    (h : q ∈ L) : diskFind (L.foldl diskRemove d) q = none := by
  induction L generalizing d with
  | nil => cases h
  | cons a L ih =>
    simp only [List.foldl]
    rcases List.mem_cons.mp h with rfl | h'
    · by_cases hq : q ∈ L
      · exact ih _ hq
      · rw [diskFind_foldl_remove_not_mem _ _ _ hq]
        exact diskFind_remove_self _ _
    · exact ih _ h'

/-! ## Characterizations of the pipeline components -/

theorem convert_cases (d : Disk) (p : ImgPath) :
    convertToCompatibleFormat d p = ⟨p, d, [], []⟩ ∨
    convertToCompatibleFormat d p = ⟨p, d, [], [.convertOpen]⟩ ∨
    ∃ (sfx : String) (m img : ImageMeta),
      diskFind d p = some img ∧
      convertToCompatibleFormat d p =
        ⟨⟨p.parent, p.stem ++ "_converted", sfx⟩,
          diskPut d ⟨p.parent, p.stem ++ "_converted", sfx⟩ m,
          [⟨p.parent, p.stem ++ "_converted", sfx⟩], [.convertOpen]⟩ := by
  unfold convertToCompatibleFormat
  split_ifs with hacc
  · exact Or.inl rfl
  · cases hf : diskFind d p with
    | none => exact Or.inr (Or.inl rfl)
    | some img =>
      dsimp only
      split_ifs with hmode
      · exact Or.inr (Or.inr ⟨".png", img, img, rfl, rfl⟩)
      · exact Or.inr (Or.inr ⟨".jpg", ⟨"RGB", img.width, img.height⟩, img, rfl, rfl⟩)

theorem resize_cases (cfg : Config) (d : Disk) (p : ImgPath) :
    (diskFind d p = none ∧ resizeImageIfNeeded cfg d p = .error .fileNotFound) ∨
    (∃ img, diskFind d p = some img ∧
      resizeImageIfNeeded cfg d p = .ok (p, d, [])) ∨
    (∃ img m, diskFind d p = some img ∧
      resizeImageIfNeeded cfg d p =
        .ok (⟨p.parent, p.stem ++ "_resized", p.suffix⟩,
          diskPut d ⟨p.parent, p.stem ++ "_resized", p.suffix⟩ m,
          [⟨p.parent, p.stem ++ "_resized", p.suffix⟩])) := by
  unfold resizeImageIfNeeded
  cases hf : diskFind d p with
  | none => exact Or.inl ⟨rfl, rfl⟩
  | some img =>
    dsimp only
    split_ifs with hb
    · exact Or.inr (Or.inl ⟨img, rfl, rfl⟩)
    · exact Or.inr (Or.inr ⟨img, _, rfl, rfl⟩)

theorem rotate_fallback_or_write (d : Disk) (p : ImgPath) (rot : Nat)
    (opath : ImgPath) (rok : Bool) :
    rotateAndSaveImage d p rot (some opath) rok = (p, d, []) ∨
    ∃ m, rotateAndSaveImage d p rot (some opath) rok =
      (opath, diskPut d opath m, [opath]) := by
  unfold rotateAndSaveImage
  by_cases h0 : rot = 0
  · rw [if_pos h0]
    exact Or.inl rfl
  · rw [if_neg h0]
    cases hf : diskFind d p with
    | none => exact Or.inl rfl
    | some img =>
      dsimp only
      cases rok with
      | false => exact Or.inl rfl
      | true => exact Or.inr ⟨_, rfl⟩

theorem rotate_90_writes (d : Disk) (p : ImgPath) (opath : ImgPath)
    (img : ImageMeta) (hf : diskFind d p = some img) :
    rotateAndSaveImage d p 90 (some opath) true =
      (opath, diskPut d opath ⟨img.mode, img.height, img.width⟩, [opath]) := by
  unfold rotateAndSaveImage
  rw [if_neg (by decide : ¬((90 : Nat) = 0)), hf]
  norm_num

theorem rotate_fails_returns_input (d : Disk) (p : ImgPath) (rot : Nat)
    (opath : ImgPath) :
    rotateAndSaveImage d p rot (some opath) false = (p, d, []) := by
  unfold rotateAndSaveImage
  by_cases h0 : rot = 0
  · rw [if_pos h0]
  · rw [if_neg h0]
    cases hf : diskFind d p with
    | none => rfl
    | some img => rfl

theorem encode_of_none {d : Disk} {p : ImgPath} (h : diskFind d p = none) :
    encodeImage d p = .error .fileNotFound := by
  simp [encodeImage, h]

theorem encode_of_some {d : Disk} {p : ImgPath} {m : ImageMeta}
    (h : diskFind d p = some m) : encodeImage d p = .ok () := by
  simp [encodeImage, h]

theorem strLen_converted : strLen "_converted" = 10 := by decide

theorem strLen_resized : strLen "_resized" = 8 := by decide

theorem strLen_oriented : strLen "_oriented" = 9 := by decide

/-- Everything `detect_image_orientation` guarantees about its result: the
disk is untouched at paths with stems no longer than the input's, every
temporary it created is gone again, temporaries carry strictly longer stems,
absent files stay absent, an engine error always escapes as a raised error,
and with the file present and a parsed engine reply the rotation is returned
after exactly one engine call. -/
theorem detect_spec (o : Except Unit Nat) (d : Disk) (p : ImgPath)
    (dt : DetectRun) (hdt : detectImageOrientation o d p = dt) :
    (∀ q, strLen q.stem ≤ strLen p.stem → diskFind dt.disk q = diskFind d q) ∧
    (∀ q ∈ dt.created, diskFind dt.disk q = none) ∧
    (∀ q ∈ dt.created, strLen q.stem = strLen p.stem + 10) ∧
    (∀ q, diskFind d q = none → diskFind dt.disk q = none) ∧
    (o = .error () → dt.result = .error .fatal) ∧
    (∀ img rot, diskFind d p = some img → o = .ok rot →
      dt.result = .ok rot ∧ dt.engineCalls = 1) := by
  subst hdt
  unfold detectImageOrientation
  rcases convert_cases d p with hcv | hcv | ⟨sfx, m, img0, hf0, hcv⟩
  · rw [hcv]
    dsimp only
    cases hfp : diskFind d p with
    | none =>
      rw [encode_of_none hfp]
      dsimp only
      rw [if_pos rfl]
      exact ⟨fun q _ => rfl, fun q hq => absurd hq (List.not_mem_nil q),
          fun q hq => absurd hq (List.not_mem_nil q),
        fun q h => h, fun _ => rfl, fun img rot hf _ => Option.noConfusion hf⟩
    | some img =>
      rw [encode_of_some hfp]
      dsimp only
      cases o with
      | error e =>
        dsimp only
        rw [if_pos rfl]
        exact ⟨fun q _ => rfl, fun q hq => absurd hq (List.not_mem_nil q),
          fun q hq => absurd hq (List.not_mem_nil q),
          fun q h => h, fun _ => rfl, fun img' rot hf ho => Except.noConfusion ho⟩
      | ok rot =>
        dsimp only
        rw [if_pos rfl]
        exact ⟨fun q _ => rfl, fun q hq => absurd hq (List.not_mem_nil q),
          fun q hq => absurd hq (List.not_mem_nil q),
          fun q h => h, fun h => Except.noConfusion h, fun img' rot' hf ho => ⟨by rw [Except.ok.inj ho], rfl⟩⟩
  · rw [hcv]
    dsimp only
    cases hfp : diskFind d p with
    | none =>
      rw [encode_of_none hfp]
      dsimp only
      rw [if_pos rfl]
      exact ⟨fun q _ => rfl, fun q hq => absurd hq (List.not_mem_nil q),
          fun q hq => absurd hq (List.not_mem_nil q),
        fun q h => h, fun _ => rfl, fun img rot hf _ => Option.noConfusion hf⟩
    | some img =>
      rw [encode_of_some hfp]
      dsimp only
      cases o with
      | error e =>
        dsimp only
        rw [if_pos rfl]
        exact ⟨fun q _ => rfl, fun q hq => absurd hq (List.not_mem_nil q),
          fun q hq => absurd hq (List.not_mem_nil q),
          fun q h => h, fun _ => rfl, fun img' rot hf ho => Except.noConfusion ho⟩
      | ok rot =>
        dsimp only
        rw [if_pos rfl]
        exact ⟨fun q _ => rfl, fun q hq => absurd hq (List.not_mem_nil q),
          fun q hq => absurd hq (List.not_mem_nil q),
          fun q h => h, fun h => Except.noConfusion h, fun img' rot' hf ho => ⟨by rw [Except.ok.inj ho], rfl⟩⟩
  · have hcpstem : (⟨p.parent, p.stem ++ "_converted", sfx⟩ : ImgPath).stem
        = p.stem ++ "_converted" := rfl
    have hcp : (⟨p.parent, p.stem ++ "_converted", sfx⟩ : ImgPath) ≠ p := by
      refine imgPath_ne_of_stem_len ?_
      rw [hcpstem, strLen_append, strLen_converted]
      omega
    rw [hcv]
    dsimp only
    rw [encode_of_some (diskFind_put_self d _ m)]
    dsimp only
    have hdisk : ∀ q, strLen q.stem ≤ strLen p.stem →
        diskFind (diskRemove
          (diskPut d ⟨p.parent, p.stem ++ "_converted", sfx⟩ m)
          ⟨p.parent, p.stem ++ "_converted", sfx⟩) q = diskFind d q := by
      intro q hq
      have hqcp : q ≠ ⟨p.parent, p.stem ++ "_converted", sfx⟩ := by
        refine imgPath_ne_of_stem_len ?_
        rw [hcpstem, strLen_append, strLen_converted]
        omega
      rw [diskFind_remove_ne _ _ _ hqcp, diskFind_put_ne _ _ _ _ hqcp]
    have hnone : ∀ q, diskFind d q = none →
        diskFind (diskRemove
          (diskPut d ⟨p.parent, p.stem ++ "_converted", sfx⟩ m)
          ⟨p.parent, p.stem ++ "_converted", sfx⟩) q = none := by
      intro q h
      by_cases hqcp : q = ⟨p.parent, p.stem ++ "_converted", sfx⟩
      · subst hqcp; exact diskFind_remove_self _ _
      · rw [diskFind_remove_ne _ _ _ hqcp, diskFind_put_ne _ _ _ _ hqcp]
        exact h
    have hgone : ∀ q, q ∈ [(⟨p.parent, p.stem ++ "_converted", sfx⟩ : ImgPath)] →
        diskFind (diskRemove
          (diskPut d ⟨p.parent, p.stem ++ "_converted", sfx⟩ m)
          ⟨p.parent, p.stem ++ "_converted", sfx⟩) q = none := by
      intro q hq
      rw [show q = (⟨p.parent, p.stem ++ "_converted", sfx⟩ : ImgPath) by
        simpa using hq]
      exact diskFind_remove_self _ _
    have hlong : ∀ q, q ∈ [(⟨p.parent, p.stem ++ "_converted", sfx⟩ : ImgPath)] →
        strLen q.stem = strLen p.stem + 10 := by
      intro q hq
      rw [show q = (⟨p.parent, p.stem ++ "_converted", sfx⟩ : ImgPath) by
        simpa using hq]
      rw [hcpstem, strLen_append, strLen_converted]
    cases o with
    | error e =>
      dsimp only
      rw [if_neg hcp]
      exact ⟨hdisk, hgone, hlong, hnone, fun _ => rfl,
        fun img' rot hf ho => Except.noConfusion ho⟩
    | ok rot =>
      dsimp only
      rw [if_neg hcp]
      exact ⟨hdisk, hgone, hlong, hnone, fun h => Except.noConfusion h,
        fun img' rot' hf ho => ⟨by rw [Except.ok.inj ho], rfl⟩⟩

/-- Everything `extract_card_names` guarantees: the disk is untouched at
paths with stems no longer than the input's, every registered cleanup file is
gone on return, cleanup files carry strictly longer stems than the input (so
the input itself is never cleaned up), absent files stay absent (the step
never leaves a new file behind), a missing input surfaces as a raised
missing-file error with no engine call, and a present input yields the
multi-pass (or single-pass) card set. -/
theorem extract_spec (cfg : Config) (sp : Nat → List String) (d : Disk)
    (p : ImgPath) (cl : Option (List String)) (ump : Bool) (er : ExtractRun)
    (her : extractCardNames cfg sp d p cl ump = er) :
    (∀ q, strLen q.stem ≤ strLen p.stem → diskFind er.disk q = diskFind d q) ∧
    (∀ q ∈ er.cleanup, diskFind er.disk q = none) ∧
    (∀ q ∈ er.cleanup, strLen q.stem = strLen p.stem + 10 ∨
      strLen q.stem = strLen p.stem + 8 ∨
      strLen q.stem = strLen p.stem + 18) ∧
    (∀ q, diskFind d q = none → diskFind er.disk q = none) ∧
    (diskFind d p = none →
      er.result = .error .fileNotFound ∧ er.disk = d ∧ er.cleanup = [] ∧
      er.engineCalls = 0 ∧ Event.encodeRead ∉ er.trace) ∧
    (∀ img, diskFind d p = some img →
      er.result = .ok (extractedCards cfg sp cl ump) ∧
      er.engineCalls = extractedCalls cfg sp cl ump) := by
  subst her
  unfold extractCardNames
  rcases convert_cases d p with hcv | hcv | ⟨sfx, m, img0, hf0, hcv⟩
  · rw [hcv]
    dsimp only
    rcases resize_cases cfg d p with ⟨hfn, hrz⟩ | ⟨img, hfs, hrz⟩ |
      ⟨img, m2, hfs, hrz⟩
    · rw [hrz]
      dsimp only
      exact ⟨fun q _ => rfl, fun q hq => absurd hq (List.not_mem_nil q),
        fun q hq => absurd hq (List.not_mem_nil q), fun q h => h,
        fun _ => ⟨rfl, rfl, rfl, rfl, by decide⟩,
        fun img hf => Option.noConfusion (hfn ▸ hf)⟩
    · rw [hrz]
      dsimp only
      rw [encode_of_some hfs]
      dsimp only
      rw [if_pos rfl]
      try dsimp only [List.nil_append, List.append_nil, List.singleton_append,
        List.foldl_cons, List.foldl_nil]
      exact ⟨fun q _ => rfl, fun q hq => absurd hq (List.not_mem_nil q),
        fun q hq => absurd hq (List.not_mem_nil q), fun q h => h,
        fun h => Option.noConfusion (h ▸ hfs),
        fun img' hf => ⟨rfl, rfl⟩⟩
    · have hrpstem : (⟨p.parent, p.stem ++ "_resized", p.suffix⟩ : ImgPath).stem
          = p.stem ++ "_resized" := rfl
      have hrp : (⟨p.parent, p.stem ++ "_resized", p.suffix⟩ : ImgPath) ≠ p := by
        refine imgPath_ne_of_stem_len ?_
        rw [hrpstem, strLen_append, strLen_resized]
        omega
      rw [hrz]
      dsimp only
      rw [encode_of_some (diskFind_put_self _ _ m2)]
      dsimp only
      rw [if_pos rfl, if_neg hrp]
      try dsimp only [List.nil_append, List.append_nil, List.singleton_append,
        List.foldl_cons, List.foldl_nil]
      refine ⟨?_, ?_, ?_, ?_, ?_, ?_⟩
      · intro q hq
        have hqrp : q ≠ ⟨p.parent, p.stem ++ "_resized", p.suffix⟩ := by
          refine imgPath_ne_of_stem_len ?_
          rw [hrpstem, strLen_append, strLen_resized]
          omega
        rw [diskFind_remove_ne _ _ _ hqrp, diskFind_put_ne _ _ _ _ hqrp]
      · intro q hq
        rw [show q = (⟨p.parent, p.stem ++ "_resized", p.suffix⟩ : ImgPath) by
          simpa using hq]
        exact diskFind_remove_self _ _
      · intro q hq
        rw [show q = (⟨p.parent, p.stem ++ "_resized", p.suffix⟩ : ImgPath) by
          simpa using hq]
        exact Or.inr (Or.inl (by rw [hrpstem, strLen_append, strLen_resized]))
      · intro q h
        by_cases hqrp : q = ⟨p.parent, p.stem ++ "_resized", p.suffix⟩
        · subst hqrp; exact diskFind_remove_self _ _
        · rw [diskFind_remove_ne _ _ _ hqrp, diskFind_put_ne _ _ _ _ hqrp]
          exact h
      · intro h
        exact absurd (h ▸ hfs) (fun hx => Option.noConfusion hx)
      · intro img' hf
        exact ⟨rfl, rfl⟩
  · rw [hcv]
    dsimp only
    rcases resize_cases cfg d p with ⟨hfn, hrz⟩ | ⟨img, hfs, hrz⟩ |
      ⟨img, m2, hfs, hrz⟩
    · rw [hrz]
      dsimp only
      exact ⟨fun q _ => rfl, fun q hq => absurd hq (List.not_mem_nil q),
        fun q hq => absurd hq (List.not_mem_nil q), fun q h => h,
        fun _ => ⟨rfl, rfl, rfl, rfl, by decide⟩,
        fun img hf => Option.noConfusion (hfn ▸ hf)⟩
    · rw [hrz]
      dsimp only
      rw [encode_of_some hfs]
      dsimp only
      rw [if_pos rfl]
      try dsimp only [List.nil_append, List.append_nil, List.singleton_append,
        List.foldl_cons, List.foldl_nil]
      exact ⟨fun q _ => rfl, fun q hq => absurd hq (List.not_mem_nil q),
        fun q hq => absurd hq (List.not_mem_nil q), fun q h => h,
        fun h => Option.noConfusion (h ▸ hfs),
        fun img' hf => ⟨rfl, rfl⟩⟩
    · have hrpstem : (⟨p.parent, p.stem ++ "_resized", p.suffix⟩ : ImgPath).stem
          = p.stem ++ "_resized" := rfl
      have hrp : (⟨p.parent, p.stem ++ "_resized", p.suffix⟩ : ImgPath) ≠ p := by
        refine imgPath_ne_of_stem_len ?_
        rw [hrpstem, strLen_append, strLen_resized]
        omega
      rw [hrz]
      dsimp only
      rw [encode_of_some (diskFind_put_self _ _ m2)]
      dsimp only
      rw [if_pos rfl, if_neg hrp]
      try dsimp only [List.nil_append, List.append_nil, List.singleton_append,
        List.foldl_cons, List.foldl_nil]
      refine ⟨?_, ?_, ?_, ?_, ?_, ?_⟩
      · intro q hq
        have hqrp : q ≠ ⟨p.parent, p.stem ++ "_resized", p.suffix⟩ := by
          refine imgPath_ne_of_stem_len ?_
          rw [hrpstem, strLen_append, strLen_resized]
          omega
        rw [diskFind_remove_ne _ _ _ hqrp, diskFind_put_ne _ _ _ _ hqrp]
      · intro q hq
        rw [show q = (⟨p.parent, p.stem ++ "_resized", p.suffix⟩ : ImgPath) by
          simpa using hq]
        exact diskFind_remove_self _ _
      · intro q hq
        rw [show q = (⟨p.parent, p.stem ++ "_resized", p.suffix⟩ : ImgPath) by
          simpa using hq]
        exact Or.inr (Or.inl (by rw [hrpstem, strLen_append, strLen_resized]))
      · intro q h
        by_cases hqrp : q = ⟨p.parent, p.stem ++ "_resized", p.suffix⟩
        · subst hqrp; exact diskFind_remove_self _ _
        · rw [diskFind_remove_ne _ _ _ hqrp, diskFind_put_ne _ _ _ _ hqrp]
          exact h
      · intro h
        exact absurd (h ▸ hfs) (fun hx => Option.noConfusion hx)
      · intro img' hf
        exact ⟨rfl, rfl⟩
  · have hcplen : strLen (⟨p.parent, p.stem ++ "_converted", sfx⟩ : ImgPath).stem
        = strLen p.stem + 10 := by
      rw [show (⟨p.parent, p.stem ++ "_converted", sfx⟩ : ImgPath).stem
        = p.stem ++ "_converted" from rfl, strLen_append, strLen_converted]
    rw [hcv]
    generalize hcpdef : (⟨p.parent, p.stem ++ "_converted", sfx⟩ : ImgPath) = cp
      at hcplen ⊢
    have hcp : cp ≠ p := imgPath_ne_of_stem_len (by omega)
    dsimp only
    rcases resize_cases cfg (diskPut d cp m) cp with ⟨hfn, hrz⟩ |
      ⟨img, hfs, hrz⟩ | ⟨img, m2, hfs, hrz⟩
    · rw [diskFind_put_self] at hfn
      cases hfn
    · rw [hrz]
      dsimp only
      rw [encode_of_some (diskFind_put_self d cp m)]
      dsimp only
      rw [if_neg hcp, if_pos rfl]
      try dsimp only [List.nil_append, List.append_nil, List.singleton_append,
        List.foldl_cons, List.foldl_nil]
      refine ⟨?_, ?_, ?_, ?_, ?_, ?_⟩
      · intro q hq
        have hqcp : q ≠ cp := imgPath_ne_of_stem_len (by omega)
        rw [diskFind_remove_ne _ _ _ hqcp, diskFind_put_ne _ _ _ _ hqcp]
      · intro q hq
        rw [show q = cp by simpa using hq]
        exact diskFind_remove_self _ _
      · intro q hq
        rw [show q = cp by simpa using hq]
        exact Or.inl (by omega)
      · intro q h
        by_cases hqcp : q = cp
        · subst hqcp; exact diskFind_remove_self _ _
        · rw [diskFind_remove_ne _ _ _ hqcp, diskFind_put_ne _ _ _ _ hqcp]
          exact h
      · intro h
        exact absurd (h ▸ hf0) (fun hx => Option.noConfusion hx)
      · intro img' hf
        exact ⟨rfl, rfl⟩
    · have hrpstem : (⟨cp.parent, cp.stem ++ "_resized", cp.suffix⟩ : ImgPath).stem
          = cp.stem ++ "_resized" := rfl
      have hrplen : strLen (⟨cp.parent, cp.stem ++ "_resized", cp.suffix⟩ : ImgPath).stem
          = strLen cp.stem + 8 := by
        rw [hrpstem, strLen_append, strLen_resized]
      have hrpcp : (⟨cp.parent, cp.stem ++ "_resized", cp.suffix⟩ : ImgPath) ≠ cp :=
        imgPath_ne_of_stem_len (by omega)
      rw [hrz]
      dsimp only
      rw [encode_of_some (diskFind_put_self _ _ m2)]
      dsimp only
      rw [if_neg hcp, if_neg hrpcp]
      try dsimp only [List.nil_append, List.append_nil, List.singleton_append,
        List.foldl_cons, List.foldl_nil]
      refine ⟨?_, ?_, ?_, ?_, ?_, ?_⟩
      · intro q hq
        have hqcp : q ≠ cp := imgPath_ne_of_stem_len (by omega)
        have hqrp : q ≠ ⟨cp.parent, cp.stem ++ "_resized", cp.suffix⟩ :=
          imgPath_ne_of_stem_len (by omega)
        rw [diskFind_remove_ne _ _ _ hqrp, diskFind_remove_ne _ _ _ hqcp,
          diskFind_put_ne _ _ _ _ hqrp, diskFind_put_ne _ _ _ _ hqcp]
      · intro q hq
        rcases List.mem_cons.mp hq with rfl | hq'
        · rw [diskFind_remove_ne _ _ _ hrpcp.symm]
          exact diskFind_remove_self _ _
        · rw [show q = (⟨cp.parent, cp.stem ++ "_resized", cp.suffix⟩ : ImgPath) by
            simpa using hq']
          exact diskFind_remove_self _ _
      · intro q hq
        rcases List.mem_cons.mp hq with rfl | hq'
        · exact Or.inl (by omega)
        · rw [show q = (⟨cp.parent, cp.stem ++ "_resized", cp.suffix⟩ : ImgPath) by
            simpa using hq']
          exact Or.inr (Or.inr (by omega))
      · intro q h
        by_cases hqrp : q = ⟨cp.parent, cp.stem ++ "_resized", cp.suffix⟩
        · subst hqrp; exact diskFind_remove_self _ _
        · rw [diskFind_remove_ne _ _ _ hqrp]
          by_cases hqcp : q = cp
          · subst hqcp; exact diskFind_remove_self _ _
          · rw [diskFind_remove_ne _ _ _ hqcp, diskFind_put_ne _ _ _ _ hqrp,
              diskFind_put_ne _ _ _ _ hqcp]
            exact h
      · intro h
        exact absurd (h ▸ hf0) (fun hx => Option.noConfusion hx)
      · intro img' hf
        exact ⟨rfl, rfl⟩

/-- The three shapes a multi-pass run can take, with the gate conditions
that select them. -/
theorem multiPass_cases (cfg : Config) (sp : Nat → List String)
    (cl : Option (List String)) :
    (¬ (truthyList cl && decide ((sp 0).length > 0)) = true ∧
      multiPassExtraction cfg sp cl =
        ⟨(sp 0).toFinset, (sp 0).toFinset, (sp 0).toFinset, false, false, 1⟩) ∨
    ((truthyList cl && decide ((sp 0).length > 0)) = true ∧
      ((truthyList cl && cfg.enableValidationPass) = true →
        10 * ((sp 0).toFinset ∪ (sp 1).toFinset).card <
          9 * cfg.expectedDeckSize →
        ¬ (!((cl.getD []).filter fun card =>
            decide (card ∉ (sp 0).toFinset ∪ (sp 1).toFinset)).isEmpty)
          = true) ∧
      multiPassExtraction cfg sp cl =
        ⟨(sp 0).toFinset ∪ (sp 1).toFinset, (sp 0).toFinset,
          (sp 0).toFinset ∪ (sp 1).toFinset, true, false, 2⟩) ∨
    ((truthyList cl && decide ((sp 0).length > 0)) = true ∧
      (truthyList cl && cfg.enableValidationPass) = true ∧
      10 * ((sp 0).toFinset ∪ (sp 1).toFinset).card <
        9 * cfg.expectedDeckSize ∧
      (!((cl.getD []).filter fun card =>
          decide (card ∉ (sp 0).toFinset ∪ (sp 1).toFinset)).isEmpty)
        = true ∧
      multiPassExtraction cfg sp cl =
        ⟨((sp 0).toFinset ∪ (sp 1).toFinset) ∪ (sp 2).toFinset,
          (sp 0).toFinset, (sp 0).toFinset ∪ (sp 1).toFinset,
          true, true, 3⟩) := by
  unfold multiPassExtraction
  simp only []
  split_ifs
  · rename_i h1 h2 h3 h4
    exact Or.inr (Or.inr ⟨h1, h2, h3, h4, rfl⟩)
  · rename_i h1 h2 h3 h4
    exact Or.inr (Or.inl ⟨h1, fun _ _ => h4, rfl⟩)
  · rename_i h1 h2 h3
    exact Or.inr (Or.inl ⟨h1, fun _ hc => absurd hc h3, rfl⟩)
  · rename_i h1 h2
    exact Or.inr (Or.inl ⟨h1, fun hc _ => absurd hc h2, rfl⟩)
  · rename_i h1
    exact Or.inl ⟨h1, rfl⟩

/-! ## Claim theorems -/

/-- C1: for every multi-pass invocation with pass results `sp 0`, `sp 1`,
`sp 2` (each a possibly empty list of names), the final CardNameSet equals
the exact-string union of the name-sets of exactly those passes that ran
under the gating rules, grows monotonically across passes (never shrinks),
and never contains a name absent from every pass; names enter the set
verbatim as returned by the engine (the set is a subset of the raw pass
results, so no case normalization is applied). -/
theorem cardNameSet_union_of_passes (cfg : Config) (sp : Nat → List String)
    (cl : Option (List String)) :
    (multiPassExtraction cfg sp cl).finalCards =
        (sp 0).toFinset ∪
          (if (multiPassExtraction cfg sp cl).pass2Ran then (sp 1).toFinset
            else ∅) ∪
          (if (multiPassExtraction cfg sp cl).pass3Ran then (sp 2).toFinset
            else ∅) ∧
      (multiPassExtraction cfg sp cl).afterPass1 ⊆
        (multiPassExtraction cfg sp cl).afterPass2 ∧
      (multiPassExtraction cfg sp cl).afterPass2 ⊆
        (multiPassExtraction cfg sp cl).finalCards ∧
      (multiPassExtraction cfg sp cl).finalCards ⊆
        (sp 0).toFinset ∪ (sp 1).toFinset ∪ (sp 2).toFinset := by
  rcases multiPass_cases cfg sp cl with ⟨h1, hx⟩ | ⟨h1, hcond, hx⟩ |
    ⟨h1, h2, h3, h4, hx⟩ <;> rw [hx] <;> dsimp only
  · refine ⟨by simp, Finset.Subset.refl _, Finset.Subset.refl _, ?_⟩
    intro x hx'
    simp only [Finset.mem_union]
    exact Or.inl (Or.inl hx')
  · refine ⟨by simp, ?_, Finset.Subset.refl _, ?_⟩
    · intro x hx'
      simp only [Finset.mem_union]
      exact Or.inl hx'
    · intro x hx'
      simp only [Finset.mem_union] at hx' ⊢
      tauto
  · refine ⟨by simp, ?_, ?_, Finset.Subset.refl _⟩
    · intro x hx'
      simp only [Finset.mem_union]
      exact Or.inl hx'
    · intro x hx'
      simp only [Finset.mem_union] at hx' ⊢
      tauto

/-- C2 counterexample: with a reference list `["A"]`, a first pass that found
exactly `"A"` and an empty second pass, all four gating conditions of the
claim hold — a ReferenceList was supplied, pass 2 ran, validation is enabled,
and `|CardNameSet after pass 2| = 1 < 0.9 * 40` — yet pass 3 does not run,
because every reference entry is already in the set (`unfound_cards` is
empty, an additional condition the claim omits). -/
theorem pass3_gating_counterexample :
    truthyList (some ["A"]) = true ∧
      (multiPassExtraction {} (fun n => if n = 0 then ["A"] else [])
        (some ["A"])).pass2Ran = true ∧
      Config.enableValidationPass {} = true ∧
      10 * (multiPassExtraction {} (fun n => if n = 0 then ["A"] else [])
        (some ["A"])).afterPass2.card < 9 * Config.expectedDeckSize {} ∧
      (multiPassExtraction {} (fun n => if n = 0 then ["A"] else [])
        (some ["A"])).pass3Ran = false := by
  refine ⟨rfl, rfl, rfl, by decide, by decide⟩

/-- C2 as amended: pass 3 runs if and only if a (truthy) ReferenceList was
supplied, pass 2 ran, the validation pass is enabled, the CardNameSet
accumulated after pass 2 has size strictly below `expected_count * 0.9`
(exact-rational reading of the float test), AND at least one ReferenceList
entry is still missing from the set. -/
theorem pass3_gating_amended (cfg : Config) (sp : Nat → List String)
    (cl : Option (List String)) :
    (multiPassExtraction cfg sp cl).pass3Ran = true ↔
      truthyList cl = true ∧
      (multiPassExtraction cfg sp cl).pass2Ran = true ∧
      cfg.enableValidationPass = true ∧
      10 * (multiPassExtraction cfg sp cl).afterPass2.card <
        9 * cfg.expectedDeckSize ∧
      ((cl.getD []).filter fun card =>
        decide (card ∉ (multiPassExtraction cfg sp cl).afterPass2)) ≠ [] := by
  rcases multiPass_cases cfg sp cl with ⟨h1, hx⟩ | ⟨h1, hcond, hx⟩ |
    ⟨h1, h2, h3, h4, hx⟩ <;> rw [hx] <;> dsimp only
  · simp
  · constructor
    · intro h
      exact absurd h (by decide)
    · rintro ⟨ht, -, hen, hlt, hne⟩
      have h2' : (truthyList cl && cfg.enableValidationPass) = true := by
        rw [ht, hen]
        rfl
      have hno := hcond h2' hlt
      cases hEq : ((cl.getD []).filter fun card =>
          decide (card ∉ (sp 0).toFinset ∪ (sp 1).toFinset)).isEmpty with
      | false => exact absurd (by rw [hEq]; rfl) hno
      | true => exact absurd (List.isEmpty_iff.mp hEq) hne
  · constructor
    · intro _
      rw [Bool.and_eq_true] at h1 h2
      refine ⟨h1.1, rfl, h2.2, h3, ?_⟩
      intro hnil
      rw [hnil] at h4
      exact absurd h4 (by decide)
    · intro _
      rfl

/-- C5: an image already in an accepted encoding is returned unchanged by the
Format Normalizer with no file created and the disk untouched, and an image
whose dimensions are within the configured bound is returned unchanged by the
Resizer with no file created and the disk untouched. -/
theorem normalizer_and_resizer_idempotent :
    (∀ (d : Disk) (p : ImgPath),
      acceptedSuffixes.contains (strLower p.suffix) = true →
      convertToCompatibleFormat d p = ⟨p, d, [], []⟩) ∧
    ∀ (cfg : Config) (d : Disk) (p : ImgPath) (img : ImageMeta),
      diskFind d p = some img → img.width ≤ cfg.maxImageWidth →
      img.height ≤ cfg.maxImageHeight →
      resizeImageIfNeeded cfg d p = .ok (p, d, []) := by
  constructor
  · intro d p h
    unfold convertToCompatibleFormat
    rw [if_pos h]
  · intro cfg d p img hf hw hh
    unfold resizeImageIfNeeded
    rw [hf]
    dsimp only
    rw [if_pos (by simp [hw, hh])]

theorem normalizer_and_resizer_idempotent_witness :
    acceptedSuffixes.contains (strLower (ImgPath.suffix ⟨"", "deck", ".JPG"⟩))
        = true ∧
      convertToCompatibleFormat [(⟨"", "deck", ".JPG"⟩, ⟨"RGB", 30, 20⟩)]
          ⟨"", "deck", ".JPG"⟩
        = ⟨⟨"", "deck", ".JPG"⟩, [(⟨"", "deck", ".JPG"⟩, ⟨"RGB", 30, 20⟩)],
            [], []⟩ ∧
      diskFind [(⟨"", "deck", ".JPG"⟩, ⟨"RGB", 30, 20⟩)] ⟨"", "deck", ".JPG"⟩
        = some ⟨"RGB", 30, 20⟩ ∧
      resizeImageIfNeeded {} [(⟨"", "deck", ".JPG"⟩, ⟨"RGB", 30, 20⟩)]
          ⟨"", "deck", ".JPG"⟩
        = .ok (⟨"", "deck", ".JPG"⟩,
            [(⟨"", "deck", ".JPG"⟩, ⟨"RGB", 30, 20⟩)], []) :=
  ⟨by decide,
    normalizer_and_resizer_idempotent.1 _ _ (by decide),
    by decide,
    normalizer_and_resizer_idempotent.2 {} _ _ ⟨"RGB", 30, 20⟩ (by decide)
      (by decide) (by decide)⟩

/-- C6 counterexample: a `.webp` image in PIL mode `LA` (grayscale with an
alpha channel) has an alpha/transparency channel and is not in an accepted
encoding, yet the Format Normalizer converts it to the lossy `.jpg` encoding
with mode `RGB` — transparency is lost, contradicting the claim that every
alpha-bearing source is converted losslessly. -/
theorem alpha_lossy_counterexample :
    specHasAlphaOrPalette "LA" = true ∧
      acceptedSuffixes.contains (strLower (ImgPath.suffix ⟨"", "img", ".webp"⟩))
        = false ∧
      diskFind [(⟨"", "img", ".webp"⟩, ⟨"LA", 10, 10⟩)] ⟨"", "img", ".webp"⟩
        = some ⟨"LA", 10, 10⟩ ∧
      (convertToCompatibleFormat [(⟨"", "img", ".webp"⟩, ⟨"LA", 10, 10⟩)]
        ⟨"", "img", ".webp"⟩).path.suffix = ".jpg" ∧
      diskFind
        (convertToCompatibleFormat [(⟨"", "img", ".webp"⟩, ⟨"LA", 10, 10⟩)]
          ⟨"", "img", ".webp"⟩).disk
        (convertToCompatibleFormat [(⟨"", "img", ".webp"⟩, ⟨"LA", 10, 10⟩)]
          ⟨"", "img", ".webp"⟩).path = some ⟨"RGB", 10, 10⟩ := by
  refine ⟨rfl, rfl, rfl, rfl, by decide⟩

/-- C6 as amended: for every source image in PIL mode `RGBA` or palette mode
`P` (the modes the source routes to the lossless branch) that is not already
in an accepted encoding, the Format Normalizer converts it to the lossless
`.png` encoding and preserves the image data including its alpha/palette mode
unchanged. -/
theorem rgba_or_palette_lossless (d : Disk) (p : ImgPath) (img : ImageMeta)
    (hf : diskFind d p = some img)
    (hacc : acceptedSuffixes.contains (strLower p.suffix) = false)
    (hmode : img.mode = "RGBA" ∨ img.mode = "P") :
    (convertToCompatibleFormat d p).path.suffix = ".png" ∧
      diskFind (convertToCompatibleFormat d p).disk
        (convertToCompatibleFormat d p).path = some img := by
  unfold convertToCompatibleFormat
  rw [if_neg (by rw [hacc]; exact Bool.false_ne_true), hf]
  dsimp only
  rw [if_pos (by rcases hmode with h | h <;> simp [h])]
  exact ⟨rfl, diskFind_put_self _ _ _⟩

theorem rgba_or_palette_lossless_witness :
    diskFind [(⟨"", "img", ".webp"⟩, ⟨"RGBA", 10, 10⟩)] ⟨"", "img", ".webp"⟩
        = some ⟨"RGBA", 10, 10⟩ ∧
      acceptedSuffixes.contains (strLower (ImgPath.suffix ⟨"", "img", ".webp"⟩))
        = false ∧
      (convertToCompatibleFormat [(⟨"", "img", ".webp"⟩, ⟨"RGBA", 10, 10⟩)]
        ⟨"", "img", ".webp"⟩).path.suffix = ".png" ∧
      diskFind
        (convertToCompatibleFormat [(⟨"", "img", ".webp"⟩, ⟨"RGBA", 10, 10⟩)]
          ⟨"", "img", ".webp"⟩).disk
        (convertToCompatibleFormat [(⟨"", "img", ".webp"⟩, ⟨"RGBA", 10, 10⟩)]
          ⟨"", "img", ".webp"⟩).path = some ⟨"RGBA", 10, 10⟩ :=
  ⟨by decide, by decide,
    (rgba_or_palette_lossless _ _ ⟨"RGBA", 10, 10⟩ (by decide) (by decide)
      (Or.inl rfl)).1,
    (rgba_or_palette_lossless _ _ ⟨"RGBA", 10, 10⟩ (by decide) (by decide)
      (Or.inl rfl)).2⟩

/-- C9 counterexample: extracting from the missing path `missing.bmp` does
raise a missing-file error, but not before any processing begins — the trace
shows the Format Normalizer already opened (and, failing, fell back) and the
Resizer already attempted to open the file; the error surfaces from inside
the Resizer, not from an upfront precondition check. -/
theorem missing_file_not_precondition_counterexample :
    diskFind [] ⟨"", "missing", ".bmp"⟩ = none ∧
      (extractCardNames {} (fun _ => []) [] ⟨"", "missing", ".bmp"⟩ none
        true).result = .error .fileNotFound ∧
      (extractCardNames {} (fun _ => []) [] ⟨"", "missing", ".bmp"⟩ none
        true).trace = [.convertOpen, .resizeOpen] ∧
      (extractCardNames {} (fun _ => []) [] ⟨"", "missing", ".bmp"⟩ none
        true).trace ≠ [] :=
  ⟨rfl, rfl, rfl, by decide⟩

/-- C9 as amended: for every input path absent from the disk, `extract`
raises a missing-file error before any encoding or engine call (no engine
call happens, the disk is unchanged, and no cleanup entry is registered),
but the error surfaces from the first file open inside the
normalize/resize preparation rather than from an upfront precondition
check. -/
theorem missing_file_raises_before_engine (cfg : Config)
    (sp : Nat → List String) (d : Disk) (p : ImgPath)
    (cl : Option (List String)) (ump : Bool) (h : diskFind d p = none) :
    (extractCardNames cfg sp d p cl ump).result = .error .fileNotFound ∧
      (extractCardNames cfg sp d p cl ump).engineCalls = 0 ∧
      (extractCardNames cfg sp d p cl ump).disk = d ∧
      (extractCardNames cfg sp d p cl ump).cleanup = [] ∧
      Event.encodeRead ∉ (extractCardNames cfg sp d p cl ump).trace := by
  obtain ⟨-, -, -, -, h5, -⟩ :=
    extract_spec cfg sp d p cl ump (extractCardNames cfg sp d p cl ump) rfl
  obtain ⟨h1, h2, h3, h4, h5⟩ := h5 h
  exact ⟨h1, h4, h2, h3, h5⟩

theorem missing_file_raises_before_engine_witness :
    diskFind [] ⟨"", "gone", ".jpg"⟩ = none ∧
      (extractCardNames {} (fun _ => []) [] ⟨"", "gone", ".jpg"⟩ none
        true).result = .error .fileNotFound ∧
      (extractCardNames {} (fun _ => []) [] ⟨"", "gone", ".jpg"⟩ none
        true).engineCalls = 0 :=
  ⟨rfl,
    (missing_file_raises_before_engine {} (fun _ => []) [] _ none true rfl).1,
    (missing_file_raises_before_engine {} (fun _ => []) [] _ none true
      rfl).2.1⟩

/-- C3: when the recognition call during orientation detection raises (any
engine or transport error), orientation correction raises — no default
rotation is substituted and no value is returned — the composed entry point
raises the same error without attempting extraction (zero extraction engine
calls), and every temporary Normalized artifact the detection call created
is gone from the disk. -/
theorem orientation_failure_aborts (cfg : Config) (sp : Nat → List String)
    (rok : Bool) (d : Disk) (p : ImgPath) (cl : Option (List String))
    (ump : Bool) (hm : strContains p.stem orientedMarker = false) :
    (detectImageOrientation (.error ()) d p).result = .error .fatal ∧
      (extractCardNamesWithOrientation cfg (.error ()) sp rok d p cl
        ump).result = .error .fatal ∧
      (extractCardNamesWithOrientation cfg (.error ()) sp rok d p cl
        ump).extractionEngineCalls = 0 ∧
      ∀ q ∈ (extractCardNamesWithOrientation cfg (.error ()) sp rok d p cl
          ump).temps,
        diskFind (extractCardNamesWithOrientation cfg (.error ()) sp rok d p
          cl ump).disk q = none := by
  obtain ⟨hd1, hd2, hd3, hd4, hd5, hd6⟩ := detect_spec (.error ()) d p _ rfl
  have hres := hd5 rfl
  refine ⟨hres, ?_⟩
  unfold extractCardNamesWithOrientation
  rw [if_neg (by simp [hm])]
  dsimp only
  rw [hres]
  dsimp only
  exact ⟨rfl, rfl, hd2⟩

theorem orientation_failure_aborts_witness :
    strContains (ImgPath.stem ⟨"", "deck", ".tiff"⟩) orientedMarker = false ∧
      (detectImageOrientation (.error ())
        [(⟨"", "deck", ".tiff"⟩, ⟨"RGB", 30, 20⟩)]
        ⟨"", "deck", ".tiff"⟩).result = .error .fatal ∧
      (extractCardNamesWithOrientation {} (.error ()) (fun _ => []) true
        [(⟨"", "deck", ".tiff"⟩, ⟨"RGB", 30, 20⟩)] ⟨"", "deck", ".tiff"⟩
        none true).result = .error .fatal ∧
      (extractCardNamesWithOrientation {} (.error ()) (fun _ => []) true
        [(⟨"", "deck", ".tiff"⟩, ⟨"RGB", 30, 20⟩)] ⟨"", "deck", ".tiff"⟩
        none true).extractionEngineCalls = 0 ∧
      diskFind
        (extractCardNamesWithOrientation {} (.error ()) (fun _ => []) true
          [(⟨"", "deck", ".tiff"⟩, ⟨"RGB", 30, 20⟩)] ⟨"", "deck", ".tiff"⟩
          none true).disk ⟨"", "deck_converted", ".jpg"⟩ = none :=
  ⟨by decide,
    (orientation_failure_aborts {} (fun _ => []) true _ _ none true
      (by decide)).1,
    (orientation_failure_aborts {} (fun _ => []) true _ _ none true
      (by decide)).2.1,
    (orientation_failure_aborts {} (fun _ => []) true _ _ none true
      (by decide)).2.2.1,
    (orientation_failure_aborts {} (fun _ => []) true _ _ none true
      (by decide)).2.2.2 ⟨"", "deck_converted", ".jpg"⟩ (by decide)⟩

/-- C4: for an image path whose base name already carries the "_oriented"
marker, the Orientation Corrector skips straight to done with rotation 0 —
the Recognition Engine is never invoked for orientation detection, no
rotation is applied, and the oriented path handed back is the input path
itself. -/
theorem oriented_marker_skips_detection (cfg : Config)
    (o : Except Unit Nat) (sp : Nat → List String) (rok : Bool) (d : Disk)
    (p : ImgPath) (cl : Option (List String)) (ump : Bool)
    (hm : strContains p.stem orientedMarker = true) :
    (extractCardNamesWithOrientation cfg o sp rok d p cl
        ump).orientationEngineCalls = 0 ∧
      (extractCardNamesWithOrientation cfg o sp rok d p cl ump).rotationUsed
        = 0 ∧
      ∀ cards op,
        (extractCardNamesWithOrientation cfg o sp rok d p cl ump).result
          = .ok (cards, op) → op = p := by
  unfold extractCardNamesWithOrientation
  rw [if_pos hm]
  dsimp only
  refine ⟨rfl, rfl, ?_⟩
  intro cards op h
  cases hres : (extractCardNames cfg sp d p cl ump).result with
  | error e =>
    rw [hres] at h
    simp only [Except.map] at h
    exact Except.noConfusion h
  | ok cards' =>
    rw [hres] at h
    simp only [Except.map] at h
    have h1 := Except.ok.inj h
    injection h1 with ha hb
    exact hb.symm

theorem oriented_marker_skips_detection_witness :
    strContains (ImgPath.stem ⟨"", "deck_oriented", ".jpg"⟩) orientedMarker
        = true ∧
      (extractCardNamesWithOrientation {} (.error ()) (fun _ => []) true
        [(⟨"", "deck_oriented", ".jpg"⟩, ⟨"RGB", 30, 20⟩)]
        ⟨"", "deck_oriented", ".jpg"⟩ none true).orientationEngineCalls
        = 0 ∧
      (extractCardNamesWithOrientation {} (.error ()) (fun _ => []) true
        [(⟨"", "deck_oriented", ".jpg"⟩, ⟨"RGB", 30, 20⟩)]
        ⟨"", "deck_oriented", ".jpg"⟩ none true).rotationUsed = 0 :=
  ⟨by decide,
    (oriented_marker_skips_detection {} (.error ()) (fun _ => []) true _ _
      none true (by decide)).1,
    (oriented_marker_skips_detection {} (.error ()) (fun _ => []) true _ _
      none true (by decide)).2.1⟩

/-- C7: when orientation detection returns a needed rotation of 90 degrees
(and the rotation primitive succeeds), the Orientation Corrector persists a
new file at the `_oriented` sibling path whose canvas dimensions are the
original's (height, width) swapped — frame expansion, no cropping — and the
path the run reports differs from the input and carries the "_oriented"
marker in its stem. -/
theorem rotation_90_expands_and_marks (cfg : Config) (sp : Nat → List String)
    (d : Disk) (p : ImgPath) (img : ImageMeta) (cl : Option (List String))
    (ump : Bool) (hm : strContains p.stem orientedMarker = false)
    (hf : diskFind d p = some img) :
    diskFind
        (extractCardNamesWithOrientation cfg (.ok 90) sp true d p cl
          ump).disk (orientedPathOf p) = some ⟨img.mode, img.height, img.width⟩ ∧
      orientedPathOf p ≠ p ∧
      strContains (orientedPathOf p).stem orientedMarker = true ∧
      (extractCardNamesWithOrientation cfg (.ok 90) sp true d p cl
        ump).result = .ok (extractedCards cfg sp cl ump, orientedPathOf p) := by
  obtain ⟨hd1, hd2, hd3, hd4, hd5, hd6⟩ := detect_spec (.ok 90) d p _ rfl
  obtain ⟨hres, hcalls⟩ := hd6 img 90 hf rfl
  have hfp : diskFind (detectImageOrientation (.ok 90) d p).disk p = some img :=
    (hd1 p (le_refl _)).trans hf
  unfold extractCardNamesWithOrientation
  rw [if_neg (by simp [hm])]
  dsimp only
  rw [hres]
  dsimp only
  rw [if_pos (by decide : ¬((90 : Nat) = 0))]
  rw [rotate_90_writes _ _ _ img hfp]
  dsimp only
  obtain ⟨he1, he2, he3, he4, he5, he6⟩ :=
    extract_spec cfg sp
      (diskPut (detectImageOrientation (.ok 90) d p).disk (orientedPathOf p)
        ⟨img.mode, img.height, img.width⟩)
      (orientedPathOf p) cl ump _ rfl
  obtain ⟨herr, hec⟩ := he6 _ (diskFind_put_self _ _ _)
  refine ⟨?_, ?_, ?_, ?_⟩
  · rw [he1 (orientedPathOf p) (le_refl _), diskFind_put_self]
  · refine imgPath_ne_of_stem_len ?_
    rw [show (orientedPathOf p).stem = p.stem ++ "_oriented" from rfl,
      strLen_append, strLen_oriented]
    omega
  · exact strContains_append_self p.stem orientedMarker
  · rw [herr]
    rfl

theorem rotation_90_expands_and_marks_witness :
    strContains (ImgPath.stem ⟨"", "deck", ".jpg"⟩) orientedMarker = false ∧
      diskFind [(⟨"", "deck", ".jpg"⟩, ⟨"RGB", 30, 20⟩)] ⟨"", "deck", ".jpg"⟩
        = some ⟨"RGB", 30, 20⟩ ∧
      diskFind
        (extractCardNamesWithOrientation {} (.ok 90) (fun _ => []) true
          [(⟨"", "deck", ".jpg"⟩, ⟨"RGB", 30, 20⟩)] ⟨"", "deck", ".jpg"⟩
          none true).disk (orientedPathOf ⟨"", "deck", ".jpg"⟩)
        = some ⟨"RGB", 20, 30⟩ ∧
      orientedPathOf ⟨"", "deck", ".jpg"⟩ ≠ ⟨"", "deck", ".jpg"⟩ ∧
      strContains (orientedPathOf ⟨"", "deck", ".jpg"⟩).stem orientedMarker
        = true :=
  ⟨by decide, by decide,
    (rotation_90_expands_and_marks {} (fun _ => [])
      [(⟨"", "deck", ".jpg"⟩, ⟨"RGB", 30, 20⟩)] ⟨"", "deck", ".jpg"⟩
      ⟨"RGB", 30, 20⟩ none true (by decide) (by decide)).1,
    (rotation_90_expands_and_marks {} (fun _ => [])
      [(⟨"", "deck", ".jpg"⟩, ⟨"RGB", 30, 20⟩)] ⟨"", "deck", ".jpg"⟩
      ⟨"RGB", 30, 20⟩ none true (by decide) (by decide)).2.1,
    (rotation_90_expands_and_marks {} (fun _ => [])
      [(⟨"", "deck", ".jpg"⟩, ⟨"RGB", 30, 20⟩)] ⟨"", "deck", ".jpg"⟩
      ⟨"RGB", 30, 20⟩ none true (by decide) (by decide)).2.2.1⟩

/-- C10 (implicit): when applying a nonzero detected rotation fails (any
exception while rotating or saving), `rotate_and_save_image` returns the
original input path unchanged, so the composed entry point completes without
error and reports an oriented image path equal to the unrotated input — a
path carrying no "_oriented" marker even though a rotation was detected. -/
theorem rotation_failure_returns_original (cfg : Config)
    (sp : Nat → List String) (d : Disk) (p : ImgPath) (img : ImageMeta)
    (rot : Nat) (cl : Option (List String)) (ump : Bool) (h0 : rot ≠ 0)
    (hm : strContains p.stem orientedMarker = false)
    (hf : diskFind d p = some img) :
    rotateAndSaveImage d p rot (some (orientedPathOf p)) false = (p, d, []) ∧
      (extractCardNamesWithOrientation cfg (.ok rot) sp false d p cl
        ump).result = .ok (extractedCards cfg sp cl ump, p) := by
  refine ⟨rotate_fails_returns_input d p rot (orientedPathOf p), ?_⟩
  obtain ⟨hd1, hd2, hd3, hd4, hd5, hd6⟩ := detect_spec (.ok rot) d p _ rfl
  obtain ⟨hres, -⟩ := hd6 img rot hf rfl
  unfold extractCardNamesWithOrientation
  rw [if_neg (by simp [hm])]
  dsimp only
  rw [hres]
  dsimp only
  rw [if_pos h0, rotate_fails_returns_input]
  dsimp only
  obtain ⟨he1, he2, he3, he4, he5, he6⟩ :=
    extract_spec cfg sp (detectImageOrientation (.ok rot) d p).disk p cl ump
      _ rfl
  obtain ⟨herr, -⟩ := he6 img ((hd1 p (le_refl _)).trans hf)
  rw [herr]
  rfl

theorem rotation_failure_returns_original_witness :
    (270 : Nat) ≠ 0 ∧
      strContains (ImgPath.stem ⟨"", "deck", ".jpg"⟩) orientedMarker = false ∧
      diskFind [(⟨"", "deck", ".jpg"⟩, ⟨"RGB", 30, 20⟩)] ⟨"", "deck", ".jpg"⟩
        = some ⟨"RGB", 30, 20⟩ ∧
      rotateAndSaveImage [(⟨"", "deck", ".jpg"⟩, ⟨"RGB", 30, 20⟩)]
        ⟨"", "deck", ".jpg"⟩ 270 (some (orientedPathOf ⟨"", "deck", ".jpg"⟩))
        false = (⟨"", "deck", ".jpg"⟩,
          [(⟨"", "deck", ".jpg"⟩, ⟨"RGB", 30, 20⟩)], []) ∧
      (extractCardNamesWithOrientation {} (.ok 270) (fun _ => []) false
        [(⟨"", "deck", ".jpg"⟩, ⟨"RGB", 30, 20⟩)] ⟨"", "deck", ".jpg"⟩
        none true).result
        = .ok (extractedCards {} (fun _ => []) none true,
            ⟨"", "deck", ".jpg"⟩) :=
  ⟨by decide, by decide, by decide,
    (rotation_failure_returns_original {} (fun _ => [])
      [(⟨"", "deck", ".jpg"⟩, ⟨"RGB", 30, 20⟩)] ⟨"", "deck", ".jpg"⟩
      ⟨"RGB", 30, 20⟩ 270 none true (by decide) (by decide) (by decide)).1,
    (rotation_failure_returns_original {} (fun _ => [])
      [(⟨"", "deck", ".jpg"⟩, ⟨"RGB", 30, 20⟩)] ⟨"", "deck", ".jpg"⟩
      ⟨"RGB", 30, 20⟩ 270 none true (by decide) (by decide) (by decide)).2⟩

/-- C8: on every exit path of the composed extraction (success or raised
error, marker or not, rotation applied, failed, or skipped), every temporary
Normalized/Resized artifact the invocation created is gone from the final
disk, the input path is never among the cleaned-up files and its disk entry
is untouched, and when the run succeeds the OrientedImage artifact it
reports is still on disk (never auto-removed). -/
theorem temp_artifacts_cleaned (cfg : Config) (o : Except Unit Nat)
    (sp : Nat → List String) (rok : Bool) (d : Disk) (p : ImgPath)
    (cl : Option (List String)) (ump : Bool) :
    (∀ q ∈ (extractCardNamesWithOrientation cfg o sp rok d p cl ump).temps,
      diskFind (extractCardNamesWithOrientation cfg o sp rok d p cl
        ump).disk q = none) ∧
    p ∉ (extractCardNamesWithOrientation cfg o sp rok d p cl ump).temps ∧
    diskFind (extractCardNamesWithOrientation cfg o sp rok d p cl ump).disk p
      = diskFind d p ∧
    ∀ cards op,
      (extractCardNamesWithOrientation cfg o sp rok d p cl ump).result
        = .ok (cards, op) →
      (diskFind (extractCardNamesWithOrientation cfg o sp rok d p cl
        ump).disk op).isSome = true := by
  by_cases hm : strContains p.stem orientedMarker = true
  · unfold extractCardNamesWithOrientation
    rw [if_pos hm]
    dsimp only
    obtain ⟨he1, he2, he3, he4, he5, he6⟩ := extract_spec cfg sp d p cl ump _ rfl
    refine ⟨he2, ?_, he1 p (le_refl _), ?_⟩
    · intro hmem
      rcases he3 p hmem with h | h | h <;> omega
    · intro cards op h
      cases hres : (extractCardNames cfg sp d p cl ump).result with
      | error e =>
        rw [hres] at h
        simp only [Except.map] at h
        exact Except.noConfusion h
      | ok cards' =>
        rw [hres] at h
        simp only [Except.map] at h
        have h1 := Except.ok.inj h
        injection h1 with ha hb
        subst hb
        cases hfd : diskFind d p with
        | none =>
          have hx := (he5 hfd).1
          rw [hx] at hres
          exact Except.noConfusion hres
        | some img =>
          rw [he1 p (le_refl _), hfd]
          rfl
  · unfold extractCardNamesWithOrientation
    rw [if_neg hm]
    dsimp only
    obtain ⟨hd1, hd2, hd3, hd4, hd5, hd6⟩ := detect_spec o d p _ rfl
    cases hres : (detectImageOrientation o d p).result with
    | error e =>
      dsimp only
      refine ⟨hd2, ?_, hd1 p (le_refl _), ?_⟩
      · intro hmem
        have := hd3 p hmem
        omega
      · intro cards op h
        exact Except.noConfusion h
    | ok rot =>
      dsimp only
      by_cases h0 : rot = 0
      · rw [if_neg (fun hc => hc h0)]
        dsimp only
        obtain ⟨he1, he2, he3, he4, he5, he6⟩ :=
          extract_spec cfg sp (detectImageOrientation o d p).disk p cl ump
            _ rfl
        refine ⟨?_, ?_, ?_, ?_⟩
        · intro q hq
          rcases List.mem_append.mp hq with hq' | hq'
          · exact he4 q (hd2 q hq')
          · exact he2 q hq'
        · intro hmem
          rcases List.mem_append.mp hmem with hq' | hq'
          · have := hd3 p hq'
            omega
          · rcases he3 p hq' with h | h | h <;> omega
        · rw [he1 p (le_refl _), hd1 p (le_refl _)]
        · intro cards op h
          cases hres2 : (extractCardNames cfg sp
              (detectImageOrientation o d p).disk p cl ump).result with
          | error e =>
            rw [hres2] at h
            simp only [Except.map] at h
            exact Except.noConfusion h
          | ok cards' =>
            rw [hres2] at h
            simp only [Except.map] at h
            have h1 := Except.ok.inj h
            injection h1 with ha hb
            subst hb
            cases hfd : diskFind (detectImageOrientation o d p).disk p with
            | none =>
              have hx := (he5 hfd).1
              rw [hx] at hres2
              exact Except.noConfusion hres2
            | some img2 =>
              rw [he1 p (le_refl _), hfd]
              rfl
      · rw [if_pos h0]
        rcases rotate_fallback_or_write (detectImageOrientation o d p).disk p
          rot (orientedPathOf p) rok with hro | ⟨m', hro⟩
        · rw [hro]
          dsimp only
          obtain ⟨he1, he2, he3, he4, he5, he6⟩ :=
            extract_spec cfg sp (detectImageOrientation o d p).disk p cl ump
              _ rfl
          refine ⟨?_, ?_, ?_, ?_⟩
          · intro q hq
            rcases List.mem_append.mp hq with hq' | hq'
            · exact he4 q (hd2 q hq')
            · exact he2 q hq'
          · intro hmem
            rcases List.mem_append.mp hmem with hq' | hq'
            · have := hd3 p hq'
              omega
            · rcases he3 p hq' with h | h | h <;> omega
          · rw [he1 p (le_refl _), hd1 p (le_refl _)]
          · intro cards op h
            cases hres2 : (extractCardNames cfg sp
                (detectImageOrientation o d p).disk p cl ump).result with
            | error e =>
              rw [hres2] at h
              simp only [Except.map] at h
              exact Except.noConfusion h
            | ok cards' =>
              rw [hres2] at h
              simp only [Except.map] at h
              have h1 := Except.ok.inj h
              injection h1 with ha hb
              subst hb
              cases hfd : diskFind (detectImageOrientation o d p).disk p with
              | none =>
                have hx := (he5 hfd).1
                rw [hx] at hres2
                exact Except.noConfusion hres2
              | some img2 =>
                rw [he1 p (le_refl _), hfd]
                rfl
        · rw [hro]
          dsimp only
          obtain ⟨he1, he2, he3, he4, he5, he6⟩ :=
            extract_spec cfg sp
              (diskPut (detectImageOrientation o d p).disk (orientedPathOf p)
                m')
              (orientedPathOf p) cl ump _ rfl
          have hol : strLen (orientedPathOf p).stem = strLen p.stem + 9 := by
            rw [show (orientedPathOf p).stem = p.stem ++ "_oriented" from rfl,
              strLen_append, strLen_oriented]
          refine ⟨?_, ?_, ?_, ?_⟩
          · intro q hq
            rcases List.mem_append.mp hq with hq' | hq'
            · have hlen := hd3 q hq'
              have hqop : q ≠ orientedPathOf p :=
                imgPath_ne_of_stem_len (by omega)
              refine he4 q ?_
              rw [diskFind_put_ne _ _ _ _ hqop]
              exact hd2 q hq'
            · exact he2 q hq'
          · intro hmem
            rcases List.mem_append.mp hmem with hq' | hq'
            · have := hd3 p hq'
              omega
            · rcases he3 p hq' with h | h | h <;> omega
          · have hpop : p ≠ orientedPathOf p :=
              imgPath_ne_of_stem_len (by omega)
            rw [he1 p (by omega), diskFind_put_ne _ _ _ _ hpop,
              hd1 p (le_refl _)]
          · intro cards op h
            cases hres2 : (extractCardNames cfg sp
                (diskPut (detectImageOrientation o d p).disk
                  (orientedPathOf p) m')
                (orientedPathOf p) cl ump).result with
            | error e =>
              rw [hres2] at h
              simp only [Except.map] at h
              exact Except.noConfusion h
            | ok cards' =>
              rw [hres2] at h
              simp only [Except.map] at h
              have h1 := Except.ok.inj h
              injection h1 with ha hb
              subst hb
              rw [he1 (orientedPathOf p) (le_refl _), diskFind_put_self]
              rfl

theorem temp_artifacts_cleaned_witness :
    diskFind
        (extractCardNamesWithOrientation {} (.ok 0) (fun _ => []) true
          [(⟨"", "huge", ".tiff"⟩, ⟨"RGB", 5000, 3000⟩)] ⟨"", "huge", ".tiff"⟩
          none true).disk ⟨"", "huge_converted", ".jpg"⟩ = none ∧
      diskFind
        (extractCardNamesWithOrientation {} (.ok 0) (fun _ => []) true
          [(⟨"", "huge", ".tiff"⟩, ⟨"RGB", 5000, 3000⟩)] ⟨"", "huge", ".tiff"⟩
          none true).disk ⟨"", "huge_converted_resized", ".jpg"⟩ = none ∧
      (⟨"", "huge", ".tiff"⟩ : ImgPath) ∉
        (extractCardNamesWithOrientation {} (.ok 0) (fun _ => []) true
          [(⟨"", "huge", ".tiff"⟩, ⟨"RGB", 5000, 3000⟩)] ⟨"", "huge", ".tiff"⟩
          none true).temps ∧
      diskFind
        (extractCardNamesWithOrientation {} (.ok 0) (fun _ => []) true
          [(⟨"", "huge", ".tiff"⟩, ⟨"RGB", 5000, 3000⟩)] ⟨"", "huge", ".tiff"⟩
          none true).disk ⟨"", "huge", ".tiff"⟩
        = diskFind [(⟨"", "huge", ".tiff"⟩, ⟨"RGB", 5000, 3000⟩)]
            ⟨"", "huge", ".tiff"⟩ :=
  ⟨(temp_artifacts_cleaned {} (.ok 0) (fun _ => []) true
      [(⟨"", "huge", ".tiff"⟩, ⟨"RGB", 5000, 3000⟩)] ⟨"", "huge", ".tiff"⟩
      none true).1 ⟨"", "huge_converted", ".jpg"⟩ (by decide),
    (temp_artifacts_cleaned {} (.ok 0) (fun _ => []) true
      [(⟨"", "huge", ".tiff"⟩, ⟨"RGB", 5000, 3000⟩)] ⟨"", "huge", ".tiff"⟩
      none true).1 ⟨"", "huge_converted_resized", ".jpg"⟩ (by decide),
    (temp_artifacts_cleaned {} (.ok 0) (fun _ => []) true
      [(⟨"", "huge", ".tiff"⟩, ⟨"RGB", 5000, 3000⟩)] ⟨"", "huge", ".tiff"⟩
      none true).2.1,
    (temp_artifacts_cleaned {} (.ok 0) (fun _ => []) true
      [(⟨"", "huge", ".tiff"⟩, ⟨"RGB", 5000, 3000⟩)] ⟨"", "huge", ".tiff"⟩
      none true).2.2.1⟩

theorem cardNameSet_union_of_passes_witness :
    (multiPassExtraction {} (fun n => if n = 0 then ["A", "B"] else [])
        (some ["A", "B", "C"])).finalCards =
      (if (0 : Nat) = 0 then ["A", "B"] else []).toFinset ∪
        (if (multiPassExtraction {} (fun n => if n = 0 then ["A", "B"] else [])
            (some ["A", "B", "C"])).pass2Ran
          then (if (1 : Nat) = 0 then ["A", "B"] else []).toFinset else ∅) ∪
        (if (multiPassExtraction {} (fun n => if n = 0 then ["A", "B"] else [])
            (some ["A", "B", "C"])).pass3Ran
          then (if (2 : Nat) = 0 then ["A", "B"] else []).toFinset else ∅) :=
  (cardNameSet_union_of_passes {} (fun n => if n = 0 then ["A", "B"] else [])
    (some ["A", "B", "C"])).1

theorem pass3_gating_amended_witness :
    truthyList (some ["A", "B", "C"]) = true ∧
      (multiPassExtraction {} (fun n => if n = 0 then ["A"] else [])
        (some ["A", "B", "C"])).pass2Ran = true ∧
      Config.enableValidationPass {} = true ∧
      10 * (multiPassExtraction {} (fun n => if n = 0 then ["A"] else [])
        (some ["A", "B", "C"])).afterPass2.card <
        9 * Config.expectedDeckSize {} ∧
      ((some ["A", "B", "C"] : Option (List String)).getD []).filter
        (fun card => decide (card ∉
          (multiPassExtraction {} (fun n => if n = 0 then ["A"] else [])
            (some ["A", "B", "C"])).afterPass2)) ≠ [] :=
  (pass3_gating_amended {} (fun n => if n = 0 then ["A"] else [])
    (some ["A", "B", "C"])).mp (by decide)

end CubeWizard
